import Mathlib

/-!
Verification development for the aspen-rs benchmark harness.

The Rust sources are shallowly embedded: byte buffers are lists of naturals
(each intended to be < 256), machine integers are naturals with explicit
`% 2^64` wherever the Rust code can wrap, Rust strings appear as their raw
UTF-8 byte lists (the codec only ever moves the bytes around;
`String::from_utf8_lossy` is the identity on valid UTF-8, which is the only
case the claims exercise), fallible functions return an error sum, and a
Rust panic (an `unwrap` or out-of-bounds slice) is an explicit `panic`
result value.
-/

namespace AspenRs

/-! ## Constants from src/lib.rs -/

def CAPACITY : Nat := 8500000
def BE_BYTE : Nat := 6
def LC_READ_BYTE : Nat := 7
def LC_WRITE_BYTE : Nat := 8
def NONE_BYTE : Nat := 0
def SOME_BYTE : Nat := 1
def SUBSTRING_LEN : Nat := 3
def LEN_LENGTH : Nat := 8
def YIELD_FREQ : Nat := 5

/-! ## Message and error types from src/packet.rs and src/lib.rs -/

/-- RequestType from src/packet.rs. -/
inductive RequestType where
  | beRead
  | lcRead
  | lcWrite
deriving DecidableEq

/-- ResponseType from src/packet.rs. -/
inductive ResponseType where
  | beRead
  | lcRead
  | lcWrite
deriving DecidableEq

/-- ParseError from src/lib.rs. -/
inductive ParseError where
  | unexpectedLength (payload_len exp_len : Nat)
  | malformedPacket (detail : String)
  | invalidMessageType (b : Nat)
  | unexpectedOptionType (b : Nat)
  | packetTooShort
  | unexpectedMessageType (given_type exp_type : ResponseType)
deriving DecidableEq

/-- Result of running a fallible Rust function that may also panic:
either a panic (out-of-bounds slice or failed `unwrap`), a returned
`Err(e)`, or a returned `Ok(a)`. -/
inductive DRes (α : Type) where
  | panic
  | err (e : ParseError)
  | ok (a : α)
deriving DecidableEq

/-- RequestType::value from src/packet.rs. -/
def RequestType.value : RequestType → Nat
  | .beRead => BE_BYTE
  | .lcRead => LC_READ_BYTE
  | .lcWrite => LC_WRITE_BYTE

/-- RequestType::from_value from src/packet.rs (the Rust `match` on the
byte is written as an if-chain on the same constants). -/
def RequestType.from_value (value : Nat) : Except ParseError RequestType :=
  if value = BE_BYTE then .ok .beRead
  else if value = LC_READ_BYTE then .ok .lcRead
  else if value = LC_WRITE_BYTE then .ok .lcWrite
  else .error (ParseError.invalidMessageType value)

/-- RequestType::expected_len from src/packet.rs: `2 * size_of::<u64>()`
for LC reads, nothing otherwise. -/
def RequestType.expected_len : RequestType → Option Nat
  | .beRead => none
  | .lcRead => some (2 * 8)
  | .lcWrite => none

/-- ResponseType::value from src/packet.rs. -/
def ResponseType.value : ResponseType → Nat
  | .beRead => BE_BYTE
  | .lcRead => LC_READ_BYTE
  | .lcWrite => LC_WRITE_BYTE

/-- ResponseType::from_value from src/packet.rs. -/
def ResponseType.from_value (value : Nat) : Except ParseError ResponseType :=
  if value = BE_BYTE then .ok .beRead
  else if value = LC_READ_BYTE then .ok .lcRead
  else if value = LC_WRITE_BYTE then .ok .lcWrite
  else .error (ParseError.invalidMessageType value)

/-- ResponseType::expected_len from src/packet.rs: `2 * size_of::<u64>()`
for BE responses, nothing otherwise.  (Note: nothing in
`Response::deserialize` consults this table.) -/
def ResponseType.expected_len : ResponseType → Option Nat
  | .beRead => some (2 * 8)
  | .lcRead => none
  | .lcWrite => none

/-- ResponseType::from_request from src/packet.rs. -/
def ResponseType.from_request : RequestType → ResponseType
  | .beRead => .beRead
  | .lcRead => .lcRead
  | .lcWrite => .lcWrite

/-! ## Big-endian encoding of u64 values -/

/-- Model of `u64::to_be_bytes` on a natural below `2^64`: the eight
big-endian base-256 digits. -/
def toBe8 (n : Nat) : List Nat :=
  [n / 2 ^ 56 % 256, n / 2 ^ 48 % 256, n / 2 ^ 40 % 256, n / 2 ^ 32 % 256,
   n / 2 ^ 24 % 256, n / 2 ^ 16 % 256, n / 2 ^ 8 % 256, n % 256]

/-- Model of `u64::from_be_bytes` (and `usize::from_be_bytes`) on a list
of bytes. -/
def fromBe (bs : List Nat) : Nat :=
  bs.foldl (fun acc b => acc * 256 + b) 0

@[simp] theorem toBe8_length (n : Nat) : (toBe8 n).length = 8 := rfl

/-! ## The codec: src/packet.rs -/

/-- check_length from src/packet.rs. -/
def check_length (len exp : Nat) : Except ParseError Unit :=
  if len < exp then .error ParseError.packetTooShort else .ok ()

/-- MessageHeader from src/packet.rs: the leading kind byte plus the
8-byte big-endian payload length. -/
structure MessageHeader where
  kind : RequestType
  payload_len : Nat
deriving DecidableEq

/-- MessageHeader::expected_len from src/packet.rs. -/
def MessageHeader.expected_len : Nat := 1 + LEN_LENGTH

/-- MessageHeader::len from src/packet.rs. -/
def MessageHeader.len (_h : MessageHeader) : Nat := MessageHeader.expected_len

/-- MessageHeader::deserialize from src/packet.rs.  The slice
`packet[1..9].try_into().unwrap()` cannot fail once `check_length`
has passed, but the panic case is kept explicit. -/
def MessageHeader.deserialize (packet : List Nat) : DRes MessageHeader :=
  match check_length packet.length MessageHeader.expected_len with
  | .error e => .err e
  | .ok _ =>
    match packet[0]? with
    | none => .panic
    | some b0 =>
      match RequestType.from_value b0 with
      | .error e => .err e
      | .ok kind =>
        let lenBytes := (packet.drop 1).take LEN_LENGTH
        if lenBytes.length = LEN_LENGTH then
          let payload_len := fromBe lenBytes
          match kind.expected_len with
          | some exp_len =>
            if exp_len ≠ payload_len then
              .err (ParseError.unexpectedLength payload_len exp_len)
            else .ok ⟨kind, payload_len⟩
          | none => .ok ⟨kind, payload_len⟩
        else .panic

/-- PayloadHeader::deserialize from src/packet.rs, returning the 8-byte
big-endian `req_id` prefix of the payload.  The source calls
`check_length(payload.len(), PayloadHeader::expected_len())` but drops
the returned `Result` (the `?` is missing), so when the payload is
shorter than `LEN_LENGTH` control reaches the slice
`payload[0..LEN_LENGTH]`, which panics. -/
def PayloadHeader.deserialize (payload : List Nat) : DRes Nat :=
  let _discarded := check_length payload.length LEN_LENGTH
  if payload.length < LEN_LENGTH then .panic
  else .ok (fromBe (payload.take LEN_LENGTH))

/-- Request from src/packet.rs; strings are their UTF-8 bytes. -/
inductive Request where
  | beRead (req_id : Nat) (substring : List Nat)
  | lcRead (req_id : Nat) (id : Nat)
  | lcWrite (req_id : Nat) (id : Nat) (username : List Nat)
deriving DecidableEq

/-- Request::kind from src/packet.rs. -/
def Request.kind : Request → RequestType
  | .beRead .. => .beRead
  | .lcRead .. => .lcRead
  | .lcWrite .. => .lcWrite

/-- Request::serialize from src/packet.rs. -/
def Request.serialize : Request → List Nat
  | .beRead req_id substring =>
    let payload := toBe8 req_id ++ substring
    RequestType.beRead.value :: (toBe8 payload.length ++ payload)
  | .lcRead req_id id =>
    let payload := toBe8 req_id ++ toBe8 id
    RequestType.lcRead.value :: (toBe8 payload.length ++ payload)
  | .lcWrite req_id id username =>
    let payload := toBe8 req_id ++ toBe8 id ++ username
    RequestType.lcWrite.value :: (toBe8 payload.length ++ payload)

/-- Request::deserialize from src/packet.rs.  Two `check_length` calls in
the source drop their `Result` (BeRead's check of at least one substring
byte); the LcRead branch's `rest_payload.try_into().unwrap()` panics
unless exactly eight bytes remain. -/
def Request.deserialize (packet : List Nat) : DRes Request :=
  match MessageHeader.deserialize packet with
  | .panic => .panic
  | .err e => .err e
  | .ok header =>
    match check_length packet.length (header.len + header.payload_len) with
    | .error e => .err e
    | .ok _ =>
      let payload := (packet.drop header.len).take header.payload_len
      match PayloadHeader.deserialize payload with
      | .panic => .panic
      | .err e => .err e
      | .ok req_id =>
        let rest_payload := payload.drop LEN_LENGTH
        match header.kind with
        | .beRead =>
          let _discarded := check_length rest_payload.length 1
          .ok (.beRead req_id rest_payload)
        | .lcRead =>
          if rest_payload.length = 8 then .ok (.lcRead req_id (fromBe rest_payload))
          else .panic
        | .lcWrite =>
          match check_length rest_payload.length (LEN_LENGTH + 1) with
          | .error e => .err e
          | .ok _ =>
            .ok (.lcWrite req_id (fromBe (rest_payload.take LEN_LENGTH))
                   (rest_payload.drop LEN_LENGTH))

/-- Response from src/packet.rs; strings are their UTF-8 bytes. -/
inductive Response where
  | beRead (req_id : Nat) (freq : Nat)
  | lcRead (req_id : Nat) (username : Option (List Nat))
  | lcWrite (req_id : Nat) (username : Option (List Nat))
deriving DecidableEq

/-- Response::kind from src/packet.rs. -/
def Response.kind : Response → ResponseType
  | .beRead .. => .beRead
  | .lcRead .. => .lcRead
  | .lcWrite .. => .lcWrite

/-- Response::serialize from src/packet.rs.  The optional username is a
`NONE_BYTE`/`SOME_BYTE` tag followed by the value bytes iff present. -/
def Response.serialize : Response → List Nat
  | .beRead req_id freq =>
    let payload := toBe8 req_id ++ toBe8 freq
    ResponseType.beRead.value :: (toBe8 payload.length ++ payload)
  | .lcRead req_id username =>
    let payload := toBe8 req_id ++
      (match username with
       | some u => SOME_BYTE :: u
       | none => [NONE_BYTE])
    ResponseType.lcRead.value :: (toBe8 payload.length ++ payload)
  | .lcWrite req_id username =>
    let payload := toBe8 req_id ++
      (match username with
       | some u => SOME_BYTE :: u
       | none => [NONE_BYTE])
    ResponseType.lcWrite.value :: (toBe8 payload.length ++ payload)

/-- Response::deserialize from src/packet.rs.  Faithful to the source:
the header is parsed with `MessageHeader::deserialize`, i.e. against the
RequestType length table; the BE branch's
`rest_payload.try_into().unwrap()` panics unless exactly eight bytes
remain; the LC branch reads the option tag from `payload[0]` (the first
`req_id` byte), not from `rest_payload[0]`; the unreachable BE arm of the
inner `match` is the source's `panic!`. -/
def Response.deserialize (packet : List Nat) : DRes Response :=
  match MessageHeader.deserialize packet with
  | .panic => .panic
  | .err e => .err e
  | .ok header =>
    match check_length packet.length (header.len + header.payload_len) with
    | .error e => .err e
    | .ok _ =>
      let payload := (packet.drop header.len).take header.payload_len
      match PayloadHeader.deserialize payload with
      | .panic => .panic
      | .err e => .err e
      | .ok req_id =>
        let rest_payload := payload.drop LEN_LENGTH
        let kind := ResponseType.from_request header.kind
        match kind with
        | .beRead =>
          if rest_payload.length = 8 then .ok (.beRead req_id (fromBe rest_payload))
          else .panic
        | k =>
          match check_length rest_payload.length 2 with
          | .error e => .err e
          | .ok _ =>
            let res : DRes (Option (List Nat)) :=
              match payload[0]? with
              | none => .panic
              | some tag =>
                if tag = NONE_BYTE then .ok none
                else if tag = SOME_BYTE then .ok (some (rest_payload.drop 1))
                else .err (ParseError.unexpectedOptionType tag)
            match res with
            | .panic => .panic
            | .err e => .err e
            | .ok username =>
              match k with
              | .lcRead => .ok (.lcRead req_id username)
              | .lcWrite => .ok (.lcWrite req_id username)
              | .beRead => .panic

/-! ## The store: src/store.rs -/

/-- Prefix test on byte lists (Rust `str::contains` reduces to a contiguous
byte-subsequence search; this is the helper checking a match at the head). -/
def leadMatch : List Nat → List Nat → Bool
  | [], _ => true
  | _ :: _, [] => false
  | a :: s, b :: h => a == b && leadMatch s h

/-- Model of `username.contains(&substring)` from `Store::be_task`:
`sub` occurs as a contiguous byte subsequence of `hay`. -/
def containsSub (hay sub : List Nat) : Bool :=
  match hay with
  | [] => sub.isEmpty
  | _ :: t => leadMatch sub hay || containsSub t sub

/-- Store::lc_read_task from src/store.rs: the `HashMap` is modelled as a
function from keys to optional values. -/
def lc_read_task (store : Nat → Option (List Nat)) (key : Nat) : Option (List Nat) :=
  store key

/-- Store::lc_write_task from src/store.rs: `HashMap::insert` returns the
previous value at the key and binds the key to the new value. -/
def lc_write_task (store : Nat → Option (List Nat)) (key : Nat) (value : List Nat) :
    Option (List Nat) × (Nat → Option (List Nat)) :=
  (store key, fun k => if k = key then some value else store k)

/-- Observable events of `Store::be_task`, in program order: taking the
shared read lease, finishing the clone of the value collection, dropping
the lease, the substring check of iteration `i`, and a cooperative yield. -/
inductive BeEv where
  | readLease
  | cloneDone
  | dropLease
  | check (i : Nat)
  | yieldNow
deriving DecidableEq

/-- The scan loop of `Store::be_task` over the cloned values, starting at
iteration index `i` with accumulator `freq`: counts the values containing
`sub` and, after the check of iteration `i`, yields whenever
`i & ((1 << YIELD_FREQ) - 1) == 0`.  Returns the final count and the
event trace. -/
def be_scan_steps (values : List (List Nat)) (sub : List Nat) (i freq : Nat) :
    Nat × List BeEv :=
  match values with
  | [] => (freq, [])
  | username :: rest =>
    let freq' := if containsSub username sub then freq + 1 else freq
    let evs := if i &&& (1 <<< YIELD_FREQ - 1) == 0
      then [BeEv.check i, BeEv.yieldNow] else [BeEv.check i]
    let tail := be_scan_steps rest sub (i + 1) freq'
    (tail.1, evs ++ tail.2)

/-- Store::be_task from src/store.rs: acquire the read lease, clone the
value collection, drop the lease, then scan the local clone.  `values` is
the sequence of values held by the map when the lease is taken.  Returns
the frequency count and the event trace. -/
def be_task (values : List (List Nat)) (sub : List Nat) : Nat × List BeEv :=
  let scanned := be_scan_steps values sub 0 0
  (scanned.1, [BeEv.readLease, BeEv.cloneDone, BeEv.dropLease] ++ scanned.2)

/-! ## Closed-loop client connection: src/client.rs -/

/-- NetworkError from src/lib.rs. -/
inductive NetworkError where
  | connectionClosed
  | connectionReset
  | interrupted
  | io
deriving DecidableEq

/-- AspenRsError from src/lib.rs, plus the InternalError variant used by
src/client/open.rs. -/
inductive AspenRsError where
  | network (e : NetworkError)
  | parse (e : ParseError)
  | internal (msg : String)
deriving DecidableEq

/-- Result of a Rust function returning `Result<_, AspenRsError>` that may
also panic. -/
inductive CRes (α : Type) where
  | panic
  | err (e : AspenRsError)
  | ok (a : α)
deriving DecidableEq

/-- Outcome of one non-blocking `stream.write` call, supplied as an oracle:
`wrote n` is `Ok(n)`, the rest are the error kinds the code distinguishes. -/
inductive WriteRes where
  | wrote (n : Nat)
  | wouldBlock
  | reset
  | interrupted
  | ioErr
deriving DecidableEq

/-- Outcome of one non-blocking `stream.read` call, supplied as an oracle:
`readBytes bs` is `Ok(bs.len())` with `bs` the bytes placed in the buffer
(an empty `bs` is a clean close). -/
inductive ReadRes where
  | readBytes (bs : List Nat)
  | wouldBlock
  | reset
  | interrupted
  | ioErr
deriving DecidableEq

/-- ConnectionStatus from src/client.rs; `Instant` timestamps are
naturals. -/
inductive ConnectionStatus where
  | ready
  | writingRequest (req : RequestType) (start_time : Option Nat)
      (write_buf : List Nat) (offset : Nat)
  | readingResponse (exp_type : ResponseType) (start_time : Nat)
      (read_buf : List Nat) (expected_len : Option Nat)
deriving DecidableEq

/-- Progress from src/client.rs. -/
inductive Progress where
  | wouldBlock
  | madeProgress
  | sentRequest
  | completedResponse (t : ResponseType) (latency : Nat)
  | connectionReset (in_flight : Bool)
  | idle
deriving DecidableEq

/-- Connection::progress from src/client.rs, as a pure function of the
current status, the optional new request, the current time `now`
(`Instant::now()`), and the outcome of the single socket operation the
status performs (`wres` for the Writing state, `rres` for the Reading
state; the other oracle is unused).  Returns the emitted progress value
and the next status.  Faithful details: the Writing state compares
`bytes_written` to the whole buffer length (not `offset + bytes_written`);
`start_time` is set on the first successful write; the Reading state
treats zero bytes read as a clean close, checks the first byte's class
only on the first non-empty read, fixes `expected_len` once nine bytes
are buffered, and rejects over-full buffers with UnexpectedLength. -/
def Connection.progress (status : ConnectionStatus) (req : Option Request)
    (now : Nat) (wres : WriteRes) (rres : ReadRes) :
    CRes (Progress × ConnectionStatus) :=
  match status with
  | .ready =>
    match req with
    | some r => .ok (.madeProgress, .writingRequest r.kind none r.serialize 0)
    | none => .ok (.idle, .ready)
  | .writingRequest rt start_time write_buf offset =>
    let req_bytes := write_buf.length
    match wres with
    | .wrote bytes_written =>
      let was_started := start_time.isSome
      let start_time' := if was_started then start_time else some now
      let status' :=
        if bytes_written = req_bytes then
          ConnectionStatus.readingResponse (ResponseType.from_request rt)
            (start_time'.getD 0) [] none
        else
          ConnectionStatus.writingRequest rt start_time' write_buf
            (offset + bytes_written)
      if was_started then .ok (.madeProgress, status')
      else .ok (.sentRequest, status')
    | .wouldBlock => .ok (.wouldBlock, status)
    | .reset => .ok (.connectionReset start_time.isSome, status)
    | .interrupted => .err (.network .interrupted)
    | .ioErr => .err (.network .io)
  | .readingResponse exp_type start_time read_buf expected_len =>
    match rres with
    | .readBytes bs =>
      if bs.length = 0 then .err (.network .connectionClosed)
      else
        let check_type := read_buf.isEmpty
        let read_buf' := read_buf ++ bs
        match ResponseType.from_value (read_buf'.headD 0) with
        | .error e => .err (.parse e)
        | .ok packet_type =>
          if check_type && exp_type ≠ packet_type then
            .err (.parse (ParseError.unexpectedMessageType packet_type exp_type))
          else
            match expected_len with
            | none =>
              if read_buf'.length < 1 + LEN_LENGTH then
                .ok (.madeProgress,
                  .readingResponse exp_type start_time read_buf' none)
              else
                let len := fromBe ((read_buf'.drop 1).take LEN_LENGTH)
                finishRead exp_type start_time read_buf' len
                  packet_type now
            | some len =>
              finishRead exp_type start_time read_buf' len
                packet_type now
    | .wouldBlock => .ok (.wouldBlock, status)
    | .reset => .ok (.connectionReset true, status)
    | .interrupted => .err (.network .interrupted)
    | .ioErr => .err (.network .io)
where
  /-- Tail of the Reading branch once `expected_len` is known. -/
  finishRead (exp_type : ResponseType) (start_time : Nat)
      (read_buf' : List Nat) (len : Nat) (packet_type : ResponseType)
      (now : Nat) : CRes (Progress × ConnectionStatus) :=
    let total_exp_len := 1 + LEN_LENGTH + len
    if read_buf'.length < total_exp_len then
      .ok (.madeProgress,
        .readingResponse exp_type start_time read_buf' (some len))
    else if read_buf'.length = total_exp_len then
      match Response.deserialize read_buf' with
      | .panic => .panic
      | .err e => .err (.parse e)
      | .ok _res =>
        .ok (.completedResponse packet_type (now - start_time), .ready)
    else
      .err (.parse (ParseError.unexpectedLength read_buf'.length total_exp_len))

/-! ## Open-loop client: src/client/open.rs -/

/-- RequestState from src/client/open.rs. -/
inductive ReqState where
  | writing (req_type : RequestType) (start_time : Option Nat)
      (write_buf : List Nat) (offset : Nat)
  | reading (res_type : ResponseType) (start_time : Nat)
      (read_buf : List Nat) (expected_len : Option Nat)
deriving DecidableEq

/-- RequestState::new from src/client/open.rs. -/
def ReqState.new (req : Request) : ReqState :=
  .writing req.kind none req.serialize 0

/-- The in-flight bookkeeping of an open-loop Connection from
src/client/open.rs (socket, latency vectors and drop counter omitted):
the `in_flight` map is an association list keyed by `req_id`. -/
structure OConn where
  in_flight : List (Nat × ReqState)
  write_queue : List Nat
  read_queue : List Nat
deriving DecidableEq

/-- Lookup in the modelled `in_flight` map. -/
def lookupState (m : List (Nat × ReqState)) (k : Nat) : Option ReqState :=
  match m with
  | [] => none
  | (k', v) :: t => if k' = k then some v else lookupState t k

/-- Model of `HashMap::insert`: returns the previous binding and the
updated map. -/
def insertState (m : List (Nat × ReqState)) (k : Nat) (v : ReqState) :
    Option ReqState × List (Nat × ReqState) :=
  match m with
  | [] => (none, [(k, v)])
  | (k', v') :: t =>
    if k' = k then (some v', (k, v) :: t)
    else
      let rest := insertState t k v
      (rest.1, (k', v') :: rest.2)

/-- Connection::enqueue_new_request from src/client/open.rs: insert the
request into `in_flight` (duplicate `req_id`s are an internal error) and
push its id onto `write_queue`. -/
def enqueue_new_request (c : OConn) (req : Request) (req_id : Nat) :
    CRes OConn :=
  match insertState c.in_flight req_id (ReqState.new req) with
  | (some _, _) => .err (.internal "req_id already exists")
  | (none, m') =>
    .ok { c with in_flight := m', write_queue := c.write_queue ++ [req_id] }

/-- OpenProgress from src/client/open.rs. -/
inductive OpenProgress where
  | madeProgress
  | connectionReset
deriving DecidableEq

/-- The `while` loop of Connection::progress_writes from
src/client/open.rs, processing the head of `write_queue` per iteration;
`ws` supplies the outcome of each `stream.write` call (when exhausted the
socket is treated as blocking, which breaks the loop).  Faithful details:
a missing `in_flight` entry panics (`unwrap`); a Reading entry at the
head of `write_queue` is an internal error; a completed write transitions
the entry to Reading and pops `write_queue` — and touches nothing else
(in particular `read_queue` is never pushed). -/
def progress_writes_go (wq : List Nat) (inflight : List (Nat × ReqState))
    (now : Nat) (ws : List WriteRes) :
    CRes (OpenProgress × (List (Nat × ReqState) × List Nat)) :=
  match wq with
  | [] => .ok (.madeProgress, (inflight, []))
  | req_id :: rest =>
    match lookupState inflight req_id with
    | none => .panic
    | some (.reading ..) =>
      .err (.internal "request in write queue with read state")
    | some (.writing req_type start_time write_buf offset) =>
      let req_bytes := write_buf.length
      match ws with
      | [] => .ok (.madeProgress, (inflight, req_id :: rest))
      | w :: wrest =>
        match w with
        | .wrote bytes_written =>
          let was_started := start_time.isSome
          let start_time' := if was_started then start_time else some now
          if bytes_written + offset = req_bytes then
            progress_writes_go rest
              (insertState inflight req_id
                (.reading (ResponseType.from_request req_type)
                  (start_time'.getD 0) [] none)).2
              now wrest
          else
            .ok (.madeProgress,
              ((insertState inflight req_id
                 (.writing req_type start_time' write_buf
                   (offset + bytes_written))).2,
               req_id :: rest))
        | .wouldBlock => .ok (.madeProgress, (inflight, req_id :: rest))
        | .reset => .ok (.connectionReset, (inflight, req_id :: rest))
        | .interrupted => .err (.network .interrupted)
        | .ioErr => .err (.network .io)

/-- Connection::progress_writes from src/client/open.rs. -/
def progress_writes (c : OConn) (now : Nat) (ws : List WriteRes) :
    CRes (OpenProgress × OConn) :=
  match progress_writes_go c.write_queue c.in_flight now ws with
  | .panic => .panic
  | .err e => .err e
  | .ok (p, (m', wq')) =>
    .ok (p, { c with in_flight := m', write_queue := wq' })

/-- The queue/state invariant claimed for the open-loop connection: every
in-flight entry in Writing state has its id in `write_queue` and every
entry in Reading state has its id in `read_queue`. -/
def queuesInv (c : OConn) : Prop :=
  ∀ p ∈ c.in_flight,
    (∀ rt st buf off, p.2 = ReqState.writing rt st buf off →
      p.1 ∈ c.write_queue) ∧
    (∀ rt st buf el, p.2 = ReqState.reading rt st buf el →
      p.1 ∈ c.read_queue)

/-! ## Open-loop request-id generation: src/client/open.rs -/

/-- The shift computed in OpenBench::run:
`usize::BITS - num_threads.leading_zeros()`, i.e. the bit length of
`num_threads`. -/
def codeShift (num_threads : Nat) : Nat :=
  if num_threads = 0 then 0 else Nat.log2 num_threads + 1

/-- The id update in ClientThread::generate_random_request:
`(((req_id >> shift) + 1) << shift) | mask` on a u64 (the left shift
wraps modulo `2^64`). -/
def genStep (shift mask req_id : Nat) : Nat :=
  ((req_id / 2 ^ shift + 1) * 2 ^ shift) % 2 ^ 64 ||| mask

/-- The `req_id` returned by the n-th generation event of a thread whose
`req_id_mask` is `mask` (ClientThread::init seeds `req_id` with the
mask; each generation returns the current id and then advances it). -/
def reqIdSeq (shift mask : Nat) : Nat → Nat
  | 0 => mask
  | n + 1 => genStep shift mask (reqIdSeq shift mask n)

/-! ## Yield-discipline trace predicates -/

/-- Checks the yield gaps of an event trace: carrying the number of
substring checks seen since the last yield (initially `cnt`), every such
run of checks must stay at or below `k`. -/
def gapsLe (k : Nat) : Nat → List BeEv → Bool
  | _, [] => true
  | cnt, BeEv.check _ :: rest => decide (cnt + 1 ≤ k) && gapsLe k (cnt + 1) rest
  | _, BeEv.yieldNow :: rest => gapsLe k 0 rest
  | cnt, _ :: rest => gapsLe k cnt rest

/-- Every yield in the trace directly follows a substring check (the
boolean argument records whether the previous event was a check). -/
def yieldAfterCheck : Bool → List BeEv → Bool
  | _, [] => true
  | prev, BeEv.yieldNow :: rest => prev && yieldAfterCheck false rest
  | _, BeEv.check _ :: rest => yieldAfterCheck true rest
  | _, _ :: rest => yieldAfterCheck false rest

/-! ## Store lemmas -/

theorem be_scan_steps_count (sub : List Nat) :
    ∀ (values : List (List Nat)) (i freq : Nat),
      (be_scan_steps values sub i freq).1 =
        freq + values.countP (fun v => containsSub v sub) := by
  intro values
  induction values with
  | nil => intro i freq; simp [be_scan_steps]
  | cons u rest ih =>
    intro i freq
    simp only [be_scan_steps, List.countP_cons]
    rw [ih]
    by_cases h : containsSub u sub
    · simp only [h, if_true, if_pos]
      omega
    · simp only [h, if_false, Bool.false_eq_true]
      omega

theorem scan_mask (i : Nat) :
    (i &&& (1 <<< YIELD_FREQ - 1) == 0) = (i % 32 == 0) := by
  have h2 : (1 : Nat) <<< YIELD_FREQ - 1 = 2 ^ 5 - 1 := by
    norm_num [YIELD_FREQ, Nat.one_shiftLeft]
  rw [h2, Nat.and_pow_two_sub_one_eq_mod]

theorem be_scan_steps_cons_yield (u : List Nat) (rest : List (List Nat))
    (sub : List Nat) (i freq : Nat) (h : i % 32 = 0) :
    (be_scan_steps (u :: rest) sub i freq).2 =
      BeEv.check i :: BeEv.yieldNow ::
        (be_scan_steps rest sub (i + 1)
          (if containsSub u sub then freq + 1 else freq)).2 := by
  simp only [be_scan_steps, scan_mask]
  rw [if_pos (by simpa using h)]
  rfl

theorem be_scan_steps_cons_noyield (u : List Nat) (rest : List (List Nat))
    (sub : List Nat) (i freq : Nat) (h : i % 32 ≠ 0) :
    (be_scan_steps (u :: rest) sub i freq).2 =
      BeEv.check i ::
        (be_scan_steps rest sub (i + 1)
          (if containsSub u sub then freq + 1 else freq)).2 := by
  simp only [be_scan_steps, scan_mask]
  rw [if_neg (by simpa using h)]
  rfl

theorem be_scan_steps_events (sub : List Nat) :
    ∀ (values : List (List Nat)) (i freq : Nat),
      ∀ e ∈ (be_scan_steps values sub i freq).2,
        (∃ j, e = BeEv.check j) ∨ e = BeEv.yieldNow := by
  intro values
  induction values with
  | nil => intro i freq e he; simp [be_scan_steps] at he
  | cons u rest ih =>
    intro i freq e he
    by_cases hy : i % 32 = 0
    · rw [be_scan_steps_cons_yield u rest sub i freq hy] at he
      simp only [List.mem_cons] at he
      rcases he with rfl | rfl | he
      · exact Or.inl ⟨i, rfl⟩
      · exact Or.inr rfl
      · exact ih (i + 1) _ e he
    · rw [be_scan_steps_cons_noyield u rest sub i freq hy] at he
      simp only [List.mem_cons] at he
      rcases he with rfl | he
      · exact Or.inl ⟨i, rfl⟩
      · exact ih (i + 1) _ e he

theorem gapsLe_scan (sub : List Nat) :
    ∀ (values : List (List Nat)) (i cnt freq : Nat), cnt ≤ 31 →
      (i % 32 ≠ 0 → cnt + 1 = i % 32) →
      gapsLe 32 cnt (be_scan_steps values sub i freq).2 = true := by
  intro values
  induction values with
  | nil => intro i cnt freq _ _; simp [be_scan_steps, gapsLe]
  | cons u rest ih =>
    intro i cnt freq h31 hinv
    by_cases hy : i % 32 = 0
    · rw [be_scan_steps_cons_yield u rest sub i freq hy]
      simp only [gapsLe, Bool.and_eq_true, decide_eq_true_eq]
      exact ⟨by omega, ih (i + 1) 0 _ (by omega) (by omega)⟩
    · rw [be_scan_steps_cons_noyield u rest sub i freq hy]
      have hcnt : cnt + 1 = i % 32 := hinv hy
      simp only [gapsLe, Bool.and_eq_true, decide_eq_true_eq]
      exact ⟨by omega, ih (i + 1) (cnt + 1) _ (by omega) (by omega)⟩

theorem yieldAfterCheck_scan (sub : List Nat) :
    ∀ (values : List (List Nat)) (i freq : Nat) (prev : Bool),
      yieldAfterCheck prev (be_scan_steps values sub i freq).2 = true := by
  intro values
  induction values with
  | nil => intro i freq prev; simp [be_scan_steps, yieldAfterCheck]
  | cons u rest ih =>
    intro i freq prev
    by_cases hy : i % 32 = 0
    · rw [be_scan_steps_cons_yield u rest sub i freq hy]
      simp only [yieldAfterCheck, Bool.true_and]
      exact ih (i + 1) _ false
    · rw [be_scan_steps_cons_noyield u rest sub i freq hy]
      simp only [yieldAfterCheck]
      exact ih (i + 1) _ true

/-! ## Claim theorems -/

/-- C1.  The codec round trip fails: the claim that
`deserialize(serialize(m)) = m` for every well-formed message, including
LC responses with username None and usernames of any length, is violated
by the code.  An LC-read response with username None serializes to a
frame with payload_len 9 which the deserializer rejects with
UnexpectedLength (the header check uses the request-type length table);
an LC-write request with an empty username is rejected with
PacketTooShort; and the one LC-response payload length the header does
accept (a 7-byte username) is silently corrupted to username None
because the option tag is read from the first req_id byte. -/
theorem c1_roundtrip_fails :
    Response.deserialize (Response.serialize (Response.lcRead 0 none)) =
      DRes.err (ParseError.unexpectedLength 9 16) ∧
    Request.deserialize (Request.serialize (Request.lcWrite 0 0 [])) =
      DRes.err ParseError.packetTooShort ∧
    Response.deserialize
        (Response.serialize (Response.lcRead 0 (some [97, 98, 99, 100, 101, 102, 103]))) =
      DRes.ok (Response.lcRead 0 none) :=
  ⟨by decide, by decide, by decide⟩

/-- C2.  Deserialization is not total: on the complete frame with kind
byte 6 (BeRead) and declared payload_len 1 — smaller than the 8-byte
req_id prefix — both Request::deserialize and Response::deserialize
panic, because PayloadHeader::deserialize discards the result of its
check_length call and then slices payload[0..8] out of a 1-byte
payload. -/
theorem c2_deserialize_panics :
    Request.deserialize [6, 0, 0, 0, 0, 0, 0, 0, 1, 65] = DRes.panic ∧
    Response.deserialize [6, 0, 0, 0, 0, 0, 0, 0, 1, 65] = DRes.panic :=
  ⟨by decide, by decide⟩

/-- C4.  The open-loop queue invariant is violated by the code: enqueue a
single LC-read request (req_id 0) on a fresh connection, then run
progress_writes with the socket accepting all 25 bytes.  The entry
transitions to the Reading state, but progress_writes only pops
write_queue and never pushes the req_id onto read_queue, so the resulting
connection has a Reading entry and an empty read_queue. -/
theorem c4_read_queue_never_pushed :
    enqueue_new_request ⟨[], [], []⟩ (Request.lcRead 0 0) 0 =
      CRes.ok ⟨[(0, ReqState.writing RequestType.lcRead none
        (Request.serialize (Request.lcRead 0 0)) 0)], [0], []⟩ ∧
    progress_writes ⟨[(0, ReqState.writing RequestType.lcRead none
        (Request.serialize (Request.lcRead 0 0)) 0)], [0], []⟩ 0
        [WriteRes.wrote 25] =
      CRes.ok (OpenProgress.madeProgress,
        ⟨[(0, ReqState.reading ResponseType.lcRead 0 [] none)], [], []⟩) ∧
    ¬ queuesInv ⟨[(0, ReqState.reading ResponseType.lcRead 0 [] none)], [], []⟩ := by
  refine ⟨by decide, by decide, fun h => ?_⟩
  have := (h (0, ReqState.reading ResponseType.lcRead 0 [] none)
    (by simp)).2 ResponseType.lcRead 0 [] none rfl
  simp at this

/-- C5.  BE scan correctness: be_task returns exactly the number of
values of the snapshot that contain the substring as a contiguous byte
subsequence, and its event trace takes the read lease, clones the value
collection, and drops the lease before the scan begins — no lease event
occurs among the scan's check/yield events. -/
theorem c5_be_scan_correct (values : List (List Nat)) (sub : List Nat) :
    (be_task values sub).1 = values.countP (fun v => containsSub v sub) ∧
    (be_task values sub).2 =
      BeEv.readLease :: BeEv.cloneDone :: BeEv.dropLease ::
        (be_scan_steps values sub 0 0).2 ∧
    ∀ e ∈ (be_scan_steps values sub 0 0).2,
      e ≠ BeEv.readLease ∧ e ≠ BeEv.cloneDone ∧ e ≠ BeEv.dropLease := by
  refine ⟨?_, rfl, ?_⟩
  · simpa using be_scan_steps_count sub values 0 0
  · intro e he
    rcases be_scan_steps_events sub values 0 0 e he with ⟨j, rfl⟩ | rfl <;>
      exact ⟨by simp, by simp, by simp⟩

/-- C6.  BE yield discipline: YIELD_FREQ is 5, within the spec's range
5–7; along any be_task trace at most `2^YIELD_FREQ` substring checks
occur between two consecutive yields (and before the first one); and
every yield directly follows the substring check of its iteration. -/
theorem c6_yield_discipline :
    (5 ≤ YIELD_FREQ ∧ YIELD_FREQ ≤ 7) ∧
    (∀ (values : List (List Nat)) (sub : List Nat),
      gapsLe (2 ^ YIELD_FREQ) 0 (be_task values sub).2 = true) ∧
    (∀ (values : List (List Nat)) (sub : List Nat),
      yieldAfterCheck false (be_task values sub).2 = true) := by
  refine ⟨⟨by norm_num [YIELD_FREQ], by norm_num [YIELD_FREQ]⟩, ?_, ?_⟩
  · intro values sub
    show gapsLe (2 ^ YIELD_FREQ) 0
      (BeEv.readLease :: BeEv.cloneDone :: BeEv.dropLease ::
        (be_scan_steps values sub 0 0).2) = true
    have h32 : (2 : Nat) ^ YIELD_FREQ = 32 := by norm_num [YIELD_FREQ]
    rw [h32]
    simp only [gapsLe]
    exact gapsLe_scan sub values 0 0 0 (by omega) (by simp)
  · intro values sub
    show yieldAfterCheck false
      (BeEv.readLease :: BeEv.cloneDone :: BeEv.dropLease ::
        (be_scan_steps values sub 0 0).2) = true
    simp only [yieldAfterCheck]
    exact yieldAfterCheck_scan sub values 0 0 false

/-- C8.  Write returns the previous value: lc_write_task returns the
value stored at the key immediately before the call, leaves the key
bound to the new value, and in particular a second write to the same key
returns Some of the first written value. -/
theorem c8_write_returns_previous (store : Nat → Option (List Nat))
    (k : Nat) (v1 v2 : List Nat) :
    (lc_write_task store k v1).1 = store k ∧
    (lc_write_task store k v1).2 k = some v1 ∧
    (lc_write_task ((lc_write_task store k v1).2) k v2).1 = some v1 := by
  refine ⟨rfl, by simp [lc_write_task], by simp [lc_write_task]⟩

/-- C9.  The in-flight flag of ConnectionReset: whenever the closed-loop
progress operation emits ConnectionReset(b), the connection was in the
Writing state and b equals start_time.is_some(), or it was in the
Reading state (whose start_time field is always set) and b is true. -/
theorem c9_reset_in_flight_flag (status : ConnectionStatus)
    (req : Option Request) (now : Nat) (wres : WriteRes) (rres : ReadRes)
    (b : Bool) (status' : ConnectionStatus)
    (h : Connection.progress status req now wres rres =
      CRes.ok (Progress.connectionReset b, status')) :
    (∃ rt st buf off, status = ConnectionStatus.writingRequest rt st buf off ∧
      b = st.isSome) ∨
    (∃ et t0 rb el, status = ConnectionStatus.readingResponse et t0 rb el ∧
      b = true) := by
  cases status with
  | ready =>
    exfalso
    cases req <;> simp [Connection.progress] at h
  | writingRequest rt st buf off =>
    cases wres with
    | wrote n =>
      exfalso
      by_cases hw : st.isSome <;>
        simp [Connection.progress, hw] at h
    | wouldBlock => exfalso; simp [Connection.progress] at h
    | reset =>
      refine Or.inl ⟨rt, st, buf, off, rfl, ?_⟩
      simp [Connection.progress] at h
      exact h.1.symm
    | interrupted => exfalso; simp [Connection.progress] at h
    | ioErr => exfalso; simp [Connection.progress] at h
  | readingResponse et t0 rb el =>
    cases rres with
    | readBytes bs =>
      exfalso
      simp only [Connection.progress] at h
      split at h
      · simp at h
      · split at h
        · simp at h
        · split at h
          · simp at h
          · split at h
            · split at h
              · simp at h
              · simp only [Connection.progress.finishRead] at h
                split at h
                · simp at h
                · split at h
                  · split at h <;> simp at h
                  · simp at h
            · simp only [Connection.progress.finishRead] at h
              split at h
              · simp at h
              · split at h
                · split at h <;> simp at h
                · simp at h
    | wouldBlock => exfalso; simp [Connection.progress] at h
    | reset =>
      refine Or.inr ⟨et, t0, rb, el, rfl, ?_⟩
      simp [Connection.progress] at h
      exact h.1
    | interrupted => exfalso; simp [Connection.progress] at h
    | ioErr => exfalso; simp [Connection.progress] at h

/-- Witness for C9: a reset while writing with start_time unset is
reported with the in-flight flag false. -/
theorem c9_witness :
    (∃ rt st buf off,
      ConnectionStatus.writingRequest RequestType.lcRead none [] 0 =
        ConnectionStatus.writingRequest rt st buf off ∧ (false : Bool) = st.isSome) ∨
    (∃ et t0 rb el,
      ConnectionStatus.writingRequest RequestType.lcRead none [] 0 =
        ConnectionStatus.readingResponse et t0 rb el ∧ (false : Bool) = true) :=
  c9_reset_in_flight_flag
    (ConnectionStatus.writingRequest RequestType.lcRead none [] 0)
    none 0 WriteRes.reset ReadRes.wouldBlock false
    (ConnectionStatus.writingRequest RequestType.lcRead none [] 0)
    (by decide)

/-! ## Append-stability of the codec (trailing bytes are ignored) -/

theorem MessageHeader.deserialize_ok_length {b : List Nat}
    {hd : MessageHeader} (h : MessageHeader.deserialize b = DRes.ok hd) :
    9 ≤ b.length := by
  by_cases h9 : b.length < MessageHeader.expected_len
  · exfalso
    unfold MessageHeader.deserialize at h
    simp [check_length, if_pos h9] at h
  · simp [MessageHeader.expected_len, LEN_LENGTH] at h9
    omega

theorem header_deserialize_append (b x : List Nat)
    (h9 : 9 ≤ b.length) :
    MessageHeader.deserialize (b ++ x) = MessageHeader.deserialize b := by
  obtain ⟨b0, bt, rfl⟩ : ∃ b0 bt, b = b0 :: bt := by
    cases b with
    | nil => simp at h9
    | cons a t => exact ⟨a, t, rfl⟩
  have hbt : 8 ≤ bt.length := by simp at h9; omega
  unfold MessageHeader.deserialize
  have hlen : ¬ (b0 :: bt).length < MessageHeader.expected_len := by
    simp [MessageHeader.expected_len, LEN_LENGTH]
    omega
  have hlen2 : ¬ ((b0 :: bt) ++ x).length < MessageHeader.expected_len := by
    simp [MessageHeader.expected_len, LEN_LENGTH]
    omega
  simp only [check_length, if_neg hlen, if_neg hlen2]
  simp only [List.cons_append, List.getElem?_cons_zero, List.drop_succ_cons,
    List.drop_zero]
  rw [List.take_append_of_le_length (by simpa [LEN_LENGTH] using hbt)]

/-- Helper for C10: a successful Request::deserialize is unchanged by
appending trailing bytes. -/
theorem request_deserialize_append {b : List Nat} {m : Request}
    (x : List Nat) (h : Request.deserialize b = DRes.ok m) :
    Request.deserialize (b ++ x) = DRes.ok m := by
  unfold Request.deserialize at h ⊢
  cases hh : MessageHeader.deserialize b with
  | panic => rw [hh] at h; simp at h
  | err e => rw [hh] at h; simp at h
  | ok hd =>
    rw [hh] at h
    have h9 : 9 ≤ b.length := MessageHeader.deserialize_ok_length hh
    rw [header_deserialize_append b x h9, hh]
    have hdlen : hd.len = 9 := by
      simp [MessageHeader.len, MessageHeader.expected_len, LEN_LENGTH]
    simp only [check_length, hdlen] at h ⊢
    by_cases hck : b.length < 9 + hd.payload_len
    · rw [if_pos hck] at h
      simp at h
    · rw [if_neg hck] at h
      have hck2 : ¬ (b ++ x).length < 9 + hd.payload_len := by
        simp
        omega
      rw [if_neg hck2]
      have hpay : ((b ++ x).drop 9).take hd.payload_len =
          (b.drop 9).take hd.payload_len := by
        rw [List.drop_append_of_le_length (by omega),
          List.take_append_of_le_length (by simp; omega)]
      rw [hpay]
      exact h

/-- Helper for C10: a successful Response::deserialize is unchanged by
appending trailing bytes. -/
theorem response_deserialize_append {b : List Nat} {r : Response}
    (x : List Nat) (h : Response.deserialize b = DRes.ok r) :
    Response.deserialize (b ++ x) = DRes.ok r := by
  unfold Response.deserialize at h ⊢
  cases hh : MessageHeader.deserialize b with
  | panic => rw [hh] at h; simp at h
  | err e => rw [hh] at h; simp at h
  | ok hd =>
    rw [hh] at h
    have h9 : 9 ≤ b.length := MessageHeader.deserialize_ok_length hh
    rw [header_deserialize_append b x h9, hh]
    have hdlen : hd.len = 9 := by
      simp [MessageHeader.len, MessageHeader.expected_len, LEN_LENGTH]
    simp only [check_length, hdlen] at h ⊢
    by_cases hck : b.length < 9 + hd.payload_len
    · rw [if_pos hck] at h
      simp at h
    · rw [if_neg hck] at h
      have hck2 : ¬ (b ++ x).length < 9 + hd.payload_len := by
        simp
        omega
      rw [if_neg hck2]
      have hpay : ((b ++ x).drop 9).take hd.payload_len =
          (b.drop 9).take hd.payload_len := by
        rw [List.drop_append_of_le_length (by omega),
          List.take_append_of_le_length (by simp; omega)]
      rw [hpay]
      exact h

/-- C10.  Trailing bytes are ignored by the codec: whenever
Request::deserialize or Response::deserialize succeeds on a byte
sequence, appending any extra bytes leaves the parsed message
unchanged — the decoder only inspects the declared
`1 + 8 + payload_len` bytes. -/
theorem c10_trailing_bytes_ignored :
    (∀ (b x : List Nat) (m : Request), Request.deserialize b = DRes.ok m →
      Request.deserialize (b ++ x) = DRes.ok m) ∧
    (∀ (b x : List Nat) (r : Response), Response.deserialize b = DRes.ok r →
      Response.deserialize (b ++ x) = DRes.ok r) :=
  ⟨fun _b x _m h => request_deserialize_append x h,
   fun _b x _r h => response_deserialize_append x h⟩

/-- Witness for C10 at concrete frames. -/
theorem c10_witness :
    Request.deserialize ((LC_READ_BYTE :: toBe8 16 ++ (toBe8 5 ++ toBe8 3)) ++ [1, 2, 3]) =
      DRes.ok (Request.lcRead 5 3) ∧
    Response.deserialize ((BE_BYTE :: toBe8 16 ++ (toBe8 5 ++ toBe8 7)) ++ [9]) =
      DRes.ok (Response.beRead 5 7) :=
  ⟨c10_trailing_bytes_ignored.1 _ [1, 2, 3] _ (by decide),
   c10_trailing_bytes_ignored.2 _ [9] _ (by decide)⟩

/-! ## Fixed-length header checks (C3) -/

theorem MessageHeader.len_eq (h : MessageHeader) : h.len = 9 := rfl

theorem PayloadHeader.deserialize_short {payload : List Nat}
    (h : payload.length < LEN_LENGTH) :
    PayloadHeader.deserialize payload = DRes.panic := by
  show (if payload.length < LEN_LENGTH then DRes.panic
    else DRes.ok (fromBe (payload.take LEN_LENGTH))) = DRes.panic
  exact if_pos h

theorem PayloadHeader.deserialize_ok {payload : List Nat}
    (h : ¬ payload.length < LEN_LENGTH) :
    PayloadHeader.deserialize payload =
      DRes.ok (fromBe (payload.take LEN_LENGTH)) := by
  show (if payload.length < LEN_LENGTH then DRes.panic
    else DRes.ok (fromBe (payload.take LEN_LENGTH))) = _
  exact if_neg h

theorem frame_drop9 (b0 : Nat) (lenBytes payload : List Nat)
    (h8 : lenBytes.length = LEN_LENGTH) :
    (b0 :: (lenBytes ++ payload)).drop 9 = payload := by
  show (lenBytes ++ payload).drop 8 = payload
  rw [List.drop_append_of_le_length (by simp [LEN_LENGTH] at h8; omega)]
  rw [List.drop_eq_nil_of_le (by simp [LEN_LENGTH] at h8; omega), List.nil_append]

/-- Evaluation of MessageHeader::deserialize on a framed packet with an
explicit 8-byte length field. -/
theorem MessageHeader.deserialize_frame (b0 : Nat) (lenBytes payload : List Nat)
    (h8 : lenBytes.length = LEN_LENGTH) :
    MessageHeader.deserialize (b0 :: lenBytes ++ payload) =
      match RequestType.from_value b0 with
      | .error e => DRes.err e
      | .ok kind =>
        match kind.expected_len with
        | some exp_len =>
          if exp_len ≠ fromBe lenBytes then
            DRes.err (ParseError.unexpectedLength (fromBe lenBytes) exp_len)
          else DRes.ok ⟨kind, fromBe lenBytes⟩
        | none => DRes.ok ⟨kind, fromBe lenBytes⟩ := by
  have hlen : ¬ (b0 :: (lenBytes ++ payload)).length < MessageHeader.expected_len := by
    simp [MessageHeader.expected_len, LEN_LENGTH] at h8 ⊢
    omega
  have htake : List.take LEN_LENGTH (lenBytes ++ payload) = lenBytes := by
    rw [List.take_append_of_le_length (le_of_eq h8.symm),
      List.take_of_length_le (le_of_eq h8)]
  unfold MessageHeader.deserialize
  simp only [List.cons_append, check_length, if_neg hlen, List.getElem?_cons_zero,
    List.drop_succ_cons, List.drop_zero, htake, h8, if_true]

/-- C3 (amended).  The fixed payload length enforced by the codec is 16
bytes (8-byte req_id plus 8-byte field), not 8: Request::deserialize
accepts exactly payload_len 16 for LC read requests and returns
UnexpectedLength{actual, 16} otherwise.  Response::deserialize validates
the header against the request-type table, so the fixed-length check
lands on LC responses rather than BE responses: an LC-framed response
with payload_len other than 16 gets UnexpectedLength{actual, 16}, while
a BE response frame passes the header for any declared payload_len and a
BE response whose payload_len differs from 16 panics at the freq field
instead of returning UnexpectedLength; payload_len 16 parses. -/
theorem c3_fixed_length_amended :
    (∀ (lenBytes payload : List Nat), lenBytes.length = LEN_LENGTH →
      payload.length = fromBe lenBytes → fromBe lenBytes ≠ 16 →
      Request.deserialize (LC_READ_BYTE :: lenBytes ++ payload) =
        DRes.err (ParseError.unexpectedLength (fromBe lenBytes) 16)) ∧
    (∀ payload : List Nat, payload.length = 16 →
      Request.deserialize (LC_READ_BYTE :: toBe8 16 ++ payload) =
        DRes.ok (Request.lcRead (fromBe (payload.take 8)) (fromBe (payload.drop 8)))) ∧
    (∀ (lenBytes payload : List Nat), lenBytes.length = LEN_LENGTH →
      payload.length = fromBe lenBytes → fromBe lenBytes ≠ 16 →
      Response.deserialize (LC_READ_BYTE :: lenBytes ++ payload) =
        DRes.err (ParseError.unexpectedLength (fromBe lenBytes) 16)) ∧
    (∀ (lenBytes payload : List Nat), lenBytes.length = LEN_LENGTH →
      payload.length = fromBe lenBytes → fromBe lenBytes ≠ 16 →
      Response.deserialize (BE_BYTE :: lenBytes ++ payload) = DRes.panic) ∧
    (∀ payload : List Nat, payload.length = 16 →
      Response.deserialize (BE_BYTE :: toBe8 16 ++ payload) =
        DRes.ok (Response.beRead (fromBe (payload.take 8)) (fromBe (payload.drop 8)))) := by
  have hfv7 : RequestType.from_value LC_READ_BYTE = Except.ok RequestType.lcRead := rfl
  have hfv6 : RequestType.from_value BE_BYTE = Except.ok RequestType.beRead := rfl
  have h16 : fromBe (toBe8 16) = 16 := rfl
  have hlen16 : (toBe8 16).length = LEN_LENGTH := rfl
  refine ⟨?_, ?_, ?_, ?_, ?_⟩
  · intro lenBytes payload h8 hp hne
    unfold Request.deserialize
    rw [MessageHeader.deserialize_frame _ _ _ h8]
    simp only [hfv7, RequestType.expected_len,
      if_pos (show (2 * 8 : Nat) ≠ fromBe lenBytes by omega)]
  · intro payload hp
    unfold Request.deserialize
    rw [MessageHeader.deserialize_frame _ _ _ hlen16]
    simp only [hfv7, RequestType.expected_len, h16,
      if_neg (show ¬ (2 * 8 : Nat) ≠ 16 by omega),
      List.cons_append, MessageHeader.len_eq]
    have hck : ¬ (LC_READ_BYTE :: (toBe8 16 ++ payload)).length < 9 + 16 := by
      simp only [List.length_cons, List.length_append, toBe8_length]
      omega
    simp only [check_length, if_neg hck]
    rw [frame_drop9 LC_READ_BYTE (toBe8 16) payload hlen16,
      List.take_of_length_le (le_of_eq hp)]
    have hL : ¬ payload.length < LEN_LENGTH := by rw [hp]; decide
    simp only [PayloadHeader.deserialize_ok hL]
    rw [if_pos (show (payload.drop LEN_LENGTH).length = 8 by
      rw [List.length_drop, hp]; decide)]
    rfl
  · intro lenBytes payload h8 hp hne
    unfold Response.deserialize
    rw [MessageHeader.deserialize_frame _ _ _ h8]
    simp only [hfv7, RequestType.expected_len,
      if_pos (show (2 * 8 : Nat) ≠ fromBe lenBytes by omega)]
  · intro lenBytes payload h8 hp hne
    unfold Response.deserialize
    rw [MessageHeader.deserialize_frame _ _ _ h8]
    simp only [hfv6, RequestType.expected_len, List.cons_append,
      MessageHeader.len_eq]
    have hck : ¬ (BE_BYTE :: (lenBytes ++ payload)).length < 9 + fromBe lenBytes := by
      simp only [List.length_cons, List.length_append]
      simp only [LEN_LENGTH] at h8
      omega
    simp only [check_length, if_neg hck]
    rw [frame_drop9 BE_BYTE lenBytes payload h8, ← hp, List.take_length]
    by_cases hL : payload.length < LEN_LENGTH
    · simp only [PayloadHeader.deserialize_short hL]
    · simp only [PayloadHeader.deserialize_ok hL, ResponseType.from_request]
      have hL8 : ¬ payload.length < 8 := by simpa [LEN_LENGTH] using hL
      rw [if_neg (show ¬ (payload.drop LEN_LENGTH).length = 8 by
        rw [List.length_drop]
        simp only [LEN_LENGTH]
        omega)]
  · intro payload hp
    unfold Response.deserialize
    rw [MessageHeader.deserialize_frame _ _ _ hlen16]
    simp only [hfv6, RequestType.expected_len, h16, List.cons_append,
      MessageHeader.len_eq]
    have hck : ¬ (BE_BYTE :: (toBe8 16 ++ payload)).length < 9 + 16 := by
      simp only [List.length_cons, List.length_append, toBe8_length]
      omega
    simp only [check_length, if_neg hck]
    rw [frame_drop9 BE_BYTE (toBe8 16) payload hlen16,
      List.take_of_length_le (le_of_eq hp)]
    have hL : ¬ payload.length < LEN_LENGTH := by rw [hp]; decide
    simp only [PayloadHeader.deserialize_ok hL, ResponseType.from_request]
    rw [if_pos (show (payload.drop LEN_LENGTH).length = 8 by
      rw [List.length_drop, hp]; decide)]
    rfl

/-- Counterexample to C3 as stated: an LC read request frame with
payload_len 8 is rejected with UnexpectedLength{8, 16} (the claim says
exactly 8 is accepted), and a BE response frame with payload_len 24
panics instead of returning UnexpectedLength. -/
theorem c3_counterexample :
    Request.deserialize (7 :: toBe8 8 ++ [0, 0, 0, 0, 0, 0, 0, 0]) =
      DRes.err (ParseError.unexpectedLength 8 16) ∧
    Response.deserialize (6 :: toBe8 24 ++ List.replicate 24 0) = DRes.panic :=
  ⟨by decide, by decide⟩

/-- Witness for C3 (amended) at concrete frames. -/
theorem c3_witness :
    Request.deserialize (LC_READ_BYTE :: toBe8 9 ++ List.replicate 9 0) =
      DRes.err (ParseError.unexpectedLength (fromBe (toBe8 9)) 16) ∧
    Request.deserialize (LC_READ_BYTE :: toBe8 16 ++ List.replicate 16 1) =
      DRes.ok (Request.lcRead (fromBe ((List.replicate 16 1).take 8))
        (fromBe ((List.replicate 16 1).drop 8))) ∧
    Response.deserialize (LC_READ_BYTE :: toBe8 9 ++ List.replicate 9 0) =
      DRes.err (ParseError.unexpectedLength (fromBe (toBe8 9)) 16) ∧
    Response.deserialize (BE_BYTE :: toBe8 12 ++ List.replicate 12 0) = DRes.panic ∧
    Response.deserialize (BE_BYTE :: toBe8 16 ++ List.replicate 16 2) =
      DRes.ok (Response.beRead (fromBe ((List.replicate 16 2).take 8))
        (fromBe ((List.replicate 16 2).drop 8))) :=
  ⟨c3_fixed_length_amended.1 (toBe8 9) (List.replicate 9 0) (by decide)
     (by decide) (by decide),
   c3_fixed_length_amended.2.1 (List.replicate 16 1) (by decide),
   c3_fixed_length_amended.2.2.1 (toBe8 9) (List.replicate 9 0) (by decide)
     (by decide) (by decide),
   c3_fixed_length_amended.2.2.2.1 (toBe8 12) (List.replicate 12 0) (by decide)
     (by decide) (by decide),
   c3_fixed_length_amended.2.2.2.2 (List.replicate 16 2) (by decide)⟩

/-! ## Request-id generation (C7) -/

/-- Closed form of the per-thread id sequence: with shift `s ≤ 64` and a
mask below `2^s`, the n-th generated id is the wrapped counter in the
high bits with the mask in the low bits. -/
theorem reqIdSeq_closed (s mask : Nat) (hs : s ≤ 64) (hm : mask < 2 ^ s) :
    ∀ n, reqIdSeq s mask n = n % 2 ^ (64 - s) * 2 ^ s + mask := by
  intro n
  induction n with
  | zero => simp [reqIdSeq]
  | succ n ih =>
    have hpow : (2 : Nat) ^ 64 = 2 ^ (64 - s) * 2 ^ s := by
      rw [← pow_add]
      congr 1
      omega
    have hdiv : (n % 2 ^ (64 - s) * 2 ^ s + mask) / 2 ^ s = n % 2 ^ (64 - s) := by
      rw [Nat.mul_comm, Nat.mul_add_div (Nat.pos_pow_of_pos s (by norm_num)),
        Nat.div_eq_of_lt hm, Nat.add_zero]
    have hmod : (n % 2 ^ (64 - s) + 1) * 2 ^ s % 2 ^ 64 =
        (n + 1) % 2 ^ (64 - s) * 2 ^ s := by
      rw [hpow, Nat.mul_mod_mul_right]
      congr 1
      rw [Nat.add_mod n 1, Nat.add_mod (n % 2 ^ (64 - s)) 1,
        Nat.mod_mod_of_dvd n (dvd_refl _)]
    have hor : (n + 1) % 2 ^ (64 - s) * 2 ^ s ||| mask =
        (n + 1) % 2 ^ (64 - s) * 2 ^ s + mask := by
      rw [Nat.mul_comm]
      exact (Nat.mul_add_lt_is_or hm _).symm
    show genStep s mask (reqIdSeq s mask n) = _
    rw [ih]
    unfold genStep
    rw [hdiv, hmod, hor]

/-- C7 (amended).  The code computes shift = 64 − leading_zeros(T), the
bit length of T, which is at least the spec's ⌈log2 T⌉.  Every id
generated by thread i is ≡ i modulo 2^⌈log2 T⌉; ids from two distinct
threads never collide; and within a thread the ids are strictly
increasing — and hence pairwise distinct — as long as the generation
count stays below 2^(64 − shift).  (Beyond that the u64 counter wraps
and ids repeat, which is what refutes the claim's unconditional
uniqueness.) -/
theorem c7_req_ids (T : Nat) (hT : 0 < T) (hT64 : T < 2 ^ 64) :
    (∀ i n, i < T →
      reqIdSeq (codeShift T) i n % 2 ^ Nat.clog 2 T = i) ∧
    (∀ i j n m, i < T → j < T → i ≠ j →
      reqIdSeq (codeShift T) i n ≠ reqIdSeq (codeShift T) j m) ∧
    (∀ i n m, i < T → n < m → m < 2 ^ (64 - codeShift T) →
      reqIdSeq (codeShift T) i n < reqIdSeq (codeShift T) i m) := by
  have hsh : codeShift T = Nat.log 2 T + 1 := by
    unfold codeShift
    rw [if_neg (by omega), Nat.log2_eq_log_two]
  have hTlt : T < 2 ^ codeShift T := by
    rw [hsh]
    exact Nat.lt_pow_succ_log_self (by norm_num) T
  have hs64 : codeShift T ≤ 64 := by
    rw [hsh]
    have hlog : Nat.log 2 T < 64 := Nat.log_lt_of_lt_pow (by omega) hT64
    omega
  have hclog : Nat.clog 2 T ≤ codeShift T :=
    (Nat.le_pow_iff_clog_le (by norm_num)).mp (le_of_lt hTlt)
  have hmodc : ∀ i n, i < T →
      reqIdSeq (codeShift T) i n % 2 ^ Nat.clog 2 T = i := by
    intro i n hi
    have hi2 : i < 2 ^ codeShift T := lt_trans hi hTlt
    rw [reqIdSeq_closed (codeShift T) i hs64 hi2 n]
    have hsplit : (2 : Nat) ^ codeShift T =
        2 ^ (codeShift T - Nat.clog 2 T) * 2 ^ Nat.clog 2 T := by
      rw [← pow_add]
      congr 1
      omega
    rw [hsplit, ← Nat.mul_assoc, Nat.mul_add_mod']
    exact Nat.mod_eq_of_lt
      (lt_of_lt_of_le hi ((Nat.le_pow_iff_clog_le (by norm_num)).mpr le_rfl))
  have hmods : ∀ i n, i < T →
      reqIdSeq (codeShift T) i n % 2 ^ codeShift T = i := by
    intro i n hi
    have hi2 : i < 2 ^ codeShift T := lt_trans hi hTlt
    rw [reqIdSeq_closed (codeShift T) i hs64 hi2 n, Nat.mul_add_mod']
    exact Nat.mod_eq_of_lt hi2
  refine ⟨hmodc, ?_, ?_⟩
  · intro i j n m hi hj hij heq
    apply hij
    have := hmods i n hi
    rw [heq, hmods j m hj] at this
    exact this.symm
  · intro i n m hi hnm hmM
    have hi2 : i < 2 ^ codeShift T := lt_trans hi hTlt
    rw [reqIdSeq_closed (codeShift T) i hs64 hi2 n,
      reqIdSeq_closed (codeShift T) i hs64 hi2 m]
    have hn : n % 2 ^ (64 - codeShift T) = n := Nat.mod_eq_of_lt (by omega)
    have hm : m % 2 ^ (64 - codeShift T) = m := Nat.mod_eq_of_lt hmM
    rw [hn, hm]
    exact Nat.add_lt_add_right
      (Nat.mul_lt_mul_right (Nat.pos_pow_of_pos _ (by norm_num)) |>.mpr hnm) i

/-- Counterexample to C7 as stated: with a single thread (mask 0,
shift 1) the 64-bit counter wraps, so generation event `2^63` returns
the same req_id as generation event 0 — two distinct generation events
on the same thread produce equal ids. -/
theorem c7_counterexample :
    reqIdSeq (codeShift 1) 0 (2 ^ 63) = reqIdSeq (codeShift 1) 0 0 ∧
    (2 : Nat) ^ 63 ≠ 0 := by
  constructor
  · have hs : codeShift 1 = 1 := by simp [codeShift, Nat.log2]
    rw [hs, reqIdSeq_closed 1 0 (by norm_num) (by norm_num) (2 ^ 63),
      reqIdSeq_closed 1 0 (by norm_num) (by norm_num) 0]
    norm_num
  · positivity

/-- Witness for C7 (amended) with two threads. -/
theorem c7_witness :
    reqIdSeq (codeShift 2) 1 3 % 2 ^ Nat.clog 2 2 = 1 ∧
    reqIdSeq (codeShift 2) 0 5 ≠ reqIdSeq (codeShift 2) 1 5 ∧
    reqIdSeq (codeShift 2) 1 0 < reqIdSeq (codeShift 2) 1 1 :=
  ⟨(c7_req_ids 2 (by norm_num) (by norm_num)).1 1 3 (by norm_num),
   (c7_req_ids 2 (by norm_num) (by norm_num)).2.1 0 1 5 5 (by norm_num)
     (by norm_num) (by norm_num),
   (c7_req_ids 2 (by norm_num) (by norm_num)).2.2 1 0 1 (by norm_num)
     (by norm_num)
     (by rw [show codeShift 2 = 2 by simp [codeShift, Nat.log2]]; norm_num)⟩

end AspenRs
